import Mathlib

/-!
Shallow embedding of `gpodder/podcastparser.py` (simplified, fast RSS parser).

The streaming SAX parser is modelled as a fold of a `step` function over a list
of XML events (element start with attributes, character data, element close).
The mutable `PodcastHandler` object becomes the explicit record `ParserState`.
External collaborators (`gpodder.util`, `gpodder.youtube`, `gpodder.vimeo`,
`urlparse.urljoin`) are out of scope for the repository and are passed in as the
`Externals` parameter, mirroring the interfaces the parser calls.

Python dict keys that can be absent (`title`, `url`, `guid` on an episode) are
`Option` fields; keys deleted by the finalizer (`enclosures`,
`_guid_is_permalink`) are `Option` fields where `none` models the deleted key.
-/

/-- Python whitespace for `str.strip()` / `\s` in `re`: space, tab, LF, CR,
vertical tab, form feed (ASCII model). -/
def pyIsSpace (c : Char) : Bool :=
  c = ' ' || c = '\t' || c = '\n' || c = '\r' || c = '\x0b' || c = '\x0c'

/-- Python `str.strip()`: remove leading and trailing whitespace. -/
def pyStrip (s : String) : String :=
  String.mk (((s.toList.dropWhile pyIsSpace).reverse.dropWhile pyIsSpace).reverse)

/-- Collapse each maximal run of whitespace to one space (the `re.sub('\s+', ' ', ·)`
part of `squash_whitespace`); the boolean records whether the previous kept
character closed a whitespace run. -/
def squashRuns : Bool → List Char → List Char
  | _, [] => []
  | prevSpace, c :: cs =>
    if pyIsSpace c then
      if prevSpace then squashRuns true cs else ' ' :: squashRuns true cs
    else c :: squashRuns false cs

/-- `squash_whitespace(text) = re.sub('\s+', ' ', text.strip())`. -/
def squash_whitespace (text : String) : String :=
  String.mk (squashRuns false (pyStrip text).toList)

/-- Value of a non-empty all-decimal digit string, `none` otherwise. -/
def decDigitsVal (cs : List Char) : Option Nat :=
  if cs.isEmpty then none
  else if cs.all (fun c => c.isDigit) then
    some (cs.foldl (fun a c => a * 10 + (c.toNat - 48)) 0)
  else none

/-- Python `long(s)` on an already-stripped string: optional sign followed by
decimal digits, `none` on anything else (models the `ValueError` branch). -/
def pyToInt (s : String) : Option Int :=
  match s.toList with
  | '+' :: cs => (decDigitsVal cs).map (fun n => (n : Int))
  | '-' :: cs => (decDigitsVal cs).map (fun n => -(n : Int))
  | cs => (decDigitsVal cs).map (fun n => (n : Int))

/-- `parse_length`: `None -> -1`; otherwise `long(text.strip()) or -1` with
`ValueError -> -1` (so a parsed `0` also becomes `-1`). -/
def parse_length (text : Option String) : Int :=
  match text with
  | none => -1
  | some t =>
    match pyToInt (pyStrip t) with
    | none => -1
    | some n => if n = 0 then -1 else n

/-- `parse_type`: default to `application/octet-stream` when the input is
absent, empty, or has no `/`; otherwise return it unchanged. -/
def parse_type (text : Option String) : String :=
  match text with
  | none => "application/octet-stream"
  | some t =>
    if t = "" || !(t.toList.contains '/') then "application/octet-stream" else t

/-- The out-of-repository collaborators the parser calls
(`gpodder.util`, `gpodder.youtube`, `gpodder.vimeo`, `urlparse`). -/
structure Externals where
  normalize_feed_url : String → String
  urljoin : String → String → String
  parse_time : String → Int
  parse_date : String → Int
  youtube_is_video_link : String → Bool
  vimeo_is_video_link : String → Bool

/-- `parse_url(text) = util.normalize_feed_url(text.strip())`. -/
def Externals.parse_url (E : Externals) (text : String) : String :=
  E.normalize_feed_url (pyStrip text)

/-- Enclosure record appended by `PodcastHandler.add_enclosure`. -/
structure Enclosure where
  url : String
  file_size : Int
  mime_type : String
deriving Repr, DecidableEq

/-- The synthetic enclosure built by `EpisodeItem.end` from a video link. -/
def syntheticEnclosure (link : String) : Enclosure :=
  { url := link, file_size := -1, mime_type := "video/mp4" }

/-- Episode dict. Defaults are the dict literal in `EpisodeItem.start`;
`title`, `url`, `guid` start as absent keys. `enclosures = none` and
`guid_is_permalink = none` model those keys after `del` in `EpisodeItem.end`
(`guid_is_permalink` is the `_guid_is_permalink` key). -/
structure Episode where
  title : Option String := none
  description : String := ""
  url : Option String := none
  published : Int := 0
  link : String := ""
  guid : Option String := none
  file_size : Int := -1
  mime_type : String := "application/octet-stream"
  total_time : Int := 0
  payment_url : Option String := none
  enclosures : Option (List Enclosure) := some []
  guid_is_permalink : Option Bool := some false
deriving Repr, DecidableEq

/-- The episode appended by `EpisodeItem.start` (all defaults). -/
def freshEpisode : Episode := {}

/-- The mutable `PodcastHandler` object plus the one piece of mutable handler
state in `MAPPING`: `EpisodeGuid.end` reassigns the `filter_func` attribute of
the `EpisodeGuid` instance stored in the table, modelled as the state field
`guid_filter_func` (initially the `Target.__init__` default `lambda x: x.strip()`).
`title`, `channel_link`, `channel_description`, `cover_url`, `payment_url`
model the `handler.data` dict (besides `data['episodes']`, which aliases
`episodes`); keys other than `title` start absent. -/
structure ParserState where
  url : String
  max_episodes : Int
  base : Option String := none
  text : Option (List String) := none
  episodes : List Episode := []
  title : String := ""
  channel_link : Option String := none
  channel_description : Option String := none
  cover_url : Option String := none
  payment_url : Option String := none
  path_stack : List String := []
  guid_filter_func : String → String := pyStrip

/-- SAX attribute map (`attrs`); lookup is `attrs.get(k)`. -/
abbrev Attrs := List (String × String)

def Attrs.get (a : Attrs) (k : String) : Option String :=
  (a.find? (fun p => p.1 = k)).map (fun p => p.2)

/-- `self.episodes[-1] = f(self.episodes[-1])` (used by `set_episode_attr` and
`add_enclosure`). On the empty list the source would raise `IndexError`; that
state is unreachable while an item element is open, and we keep the function
total by leaving the empty list unchanged. -/
def modifyLast (f : Episode → Episode) : List Episode → List Episode
  | [] => []
  | [e] => [f e]
  | e :: e' :: es => e :: modifyLast f (e' :: es)

def setEpisode (s : ParserState) (f : Episode → Episode) : ParserState :=
  { s with episodes := modifyLast f s.episodes }

/-- ASCII model of Python `str.lower()`. -/
def lowerStr (s : String) : String := String.mk (s.toList.map Char.toLower)

/-- The closed set of `Target` subclasses as bound in `MAPPING`, with each
instance's constructor arguments (key, filter) baked into the variant. -/
inductive Target where
  | rssRoot
  | podcastItem
  | podcastAttrTitle
  | podcastAttrLink
  | podcastAttrDescription
  | podcastAttrCoverUrl
  | podcastAttrFromHrefCoverUrl
  | podcastAttrFromPaymentHref
  | episodeItem
  | episodeGuid
  | episodeAttrTitle
  | episodeAttrLink
  | episodeAttrDescription
  | episodeAttrDuration
  | episodeAttrPubDate
  | episodeAttrFromPaymentHref
  | enclosureTarget
deriving Repr, DecidableEq

/-- `WANT_TEXT`: true on `PodcastAttr` and `EpisodeAttr` (hence `EpisodeGuid`)
instances, false elsewhere. -/
def Target.wantText : Target → Bool
  | .podcastAttrTitle | .podcastAttrLink | .podcastAttrDescription
  | .podcastAttrCoverUrl => true
  | .episodeGuid | .episodeAttrTitle | .episodeAttrLink | .episodeAttrDescription
  | .episodeAttrDuration | .episodeAttrPubDate => true
  | _ => false

/-- The `MAPPING` dict: full slash-joined path from the document root to the
bound target. -/
def MAPPING : String → Option Target
  | "rss" => some .rssRoot
  | "rss/channel" => some .podcastItem
  | "rss/channel/title" => some .podcastAttrTitle
  | "rss/channel/link" => some .podcastAttrLink
  | "rss/channel/description" => some .podcastAttrDescription
  | "rss/channel/image/url" => some .podcastAttrCoverUrl
  | "rss/channel/itunes:image" => some .podcastAttrFromHrefCoverUrl
  | "rss/channel/atom:link" => some .podcastAttrFromPaymentHref
  | "rss/channel/item" => some .episodeItem
  | "rss/channel/item/guid" => some .episodeGuid
  | "rss/channel/item/title" => some .episodeAttrTitle
  | "rss/channel/item/link" => some .episodeAttrLink
  | "rss/channel/item/description" => some .episodeAttrDescription
  | "rss/channel/item/itunes:duration" => some .episodeAttrDuration
  | "rss/channel/item/pubDate" => some .episodeAttrPubDate
  | "rss/channel/item/atom:link" => some .episodeAttrFromPaymentHref
  | "rss/channel/item/enclosure" => some .enclosureTarget
  | _ => none

/-- `Enclosure.start`: no-op without a `url` attribute; otherwise join the url
against the feed source URL (`handler.url`, not `xml:base`), normalize it,
parse `length` and `type`, and append to the current episode's enclosure list.
(On an episode whose `enclosures` key was deleted the source would raise
`KeyError`; unreachable while an item is open — modelled as a no-op via
`Option.map`.) -/
def enclosureStart (E : Externals) (s : ParserState) (attrs : Attrs) : ParserState :=
  match attrs.get "url" with
  | none => s
  | some u =>
    let url := E.parse_url (E.urljoin s.url u)
    let fs := parse_length (attrs.get "length")
    let mt := parse_type (attrs.get "type")
    setEpisode s (fun e =>
      { e with enclosures := e.enclosures.map (fun l => l ++ [⟨url, fs, mt⟩]) })

/-- The `entry.update(entry['enclosures'][0])`-to-`del entry['_guid_is_permalink']`
part of `EpisodeItem.end`: fold the first enclosure's fields into the episode,
delete the enclosure list, default `guid` and `title` to `url`, resolve a
permalink guid into an empty `link`, and delete the permalink flag. -/
def finalizeEntry (e0 : Enclosure) (entry : Episode) : Episode :=
  let entry := { entry with url := some e0.url, file_size := e0.file_size,
                            mime_type := e0.mime_type, enclosures := none }
  let entry := if entry.guid.isNone then { entry with guid := entry.url } else entry
  let entry := if entry.title.isNone then { entry with title := entry.url } else entry
  let entry := if entry.link = "" ∧ entry.guid_is_permalink.getD false then
                 { entry with link := entry.guid.getD "" }
               else entry
  { entry with guid_is_permalink := none }

/-- `EpisodeItem.end`: when the enclosure list is empty, synthesize a video
enclosure from the link if a classifier matches, else pop the episode and stop;
otherwise finalize the last episode in place. (The `none` fallthroughs model
`IndexError`/`KeyError` states unreachable while an item element is open.) -/
def episodeItemEnd (E : Externals) (s : ParserState) : ParserState :=
  match s.episodes.getLast? with
  | none => s
  | some entry =>
    match entry.enclosures with
    | none => s
    | some encls =>
      let encls :=
        if encls.length = 0 then
          if E.youtube_is_video_link entry.link || E.vimeo_is_video_link entry.link then
            encls ++ [syntheticEnclosure entry.link]
          else encls
        else encls
      match encls with
      | [] => { s with episodes := s.episodes.dropLast }
      | e0 :: _ =>
        { s with episodes :=
            s.episodes.dropLast ++ [finalizeEntry e0 { entry with enclosures := some encls }] }

/-- Descending-by-`published` ordering; `List.insertionSort` with it is a
stable descending sort, matching Python's stable
`list.sort(key=lambda entry: entry.get('published'), reverse=True)`. -/
def pubGE (a b : Episode) : Prop := b.published ≤ a.published

instance : DecidableRel pubGE := fun a b => Int.decLe b.published a.published

instance : IsTotal Episode pubGE :=
  ⟨fun a b => (Int.le_total b.published a.published).imp id id⟩

instance : IsTrans Episode pubGE :=
  ⟨fun _ _ _ h1 h2 => le_trans h2 h1⟩

/-- Python `l[:m]`: for `m ≥ 0` the first `m` entries, for `m < 0` all but the
last `-m` entries (clamped at zero). -/
def pySliceTo (m : Int) (l : List Episode) : List Episode :=
  if 0 ≤ m then l.take m.toNat else l.take (l.length - (-m).toNat)

/-- `PodcastItem.end` (channel close): stable sort by `published` descending,
then `episodes[:max_episodes]` when `max_episodes` is truthy (nonzero). -/
def podcastItemEnd (s : ParserState) : ParserState :=
  let sorted := s.episodes.insertionSort pubGE
  { s with episodes := if s.max_episodes ≠ 0 then pySliceTo s.max_episodes sorted else sorted }

/-- `EpisodeGuid.start`: `_guid_is_permalink := (attrs.get('isPermaLink', 'true').lower() == 'true')`. -/
def episodeGuidStart (s : ParserState) (attrs : Attrs) : ParserState :=
  let b := lowerStr ((attrs.get "isPermaLink").getD "true") == "true"
  setEpisode s (fun e => { e with guid_is_permalink := some b })

/-- The closure `EpisodeGuid.end` builds and assigns to `self.filter_func`:
strip, then join against `handler.base` when set. (The closure reads
`handler.base` when invoked; `base` is only written at the root open, before
any guid close, so capturing its value here is observationally equivalent
within one parse.) -/
def guidFilterOf (E : Externals) (base : Option String) : String → String :=
  fun guid =>
    match base with
    | some b => E.urljoin b (pyStrip guid)
    | none => pyStrip guid

/-- `EpisodeGuid.end`: assign the closure to the handler instance's
`filter_func` (mutating the object stored in `MAPPING`), then run
`EpisodeAttr.end`, storing `filter_func(text)` under `guid`. -/
def episodeGuidEnd (E : Externals) (s : ParserState) (text : String) : ParserState :=
  let f := guidFilterOf E s.base
  { setEpisode s (fun e => { e with guid := some (f text) }) with guid_filter_func := f }

/-- `target.start(handler, attrs)` for each `MAPPING` entry. -/
def Target.startHook (E : Externals) : Target → ParserState → Attrs → ParserState
  | .rssRoot, s, attrs => { s with base := attrs.get "xml:base" }
  | .podcastAttrFromHrefCoverUrl, s, attrs =>
    (match attrs.get "href" with
     | some v => if v ≠ "" then { s with cover_url := some (pyStrip v) } else s
     | none => s)
  | .podcastAttrFromPaymentHref, s, attrs =>
    if attrs.get "rel" = some "payment" then
      (match attrs.get "href" with
       | some v => if v ≠ "" then { s with payment_url := some (pyStrip v) } else s
       | none => s)
    else s
  | .episodeItem, s, _ => { s with episodes := s.episodes ++ [freshEpisode] }
  | .episodeGuid, s, attrs => episodeGuidStart s attrs
  | .episodeAttrFromPaymentHref, s, attrs =>
    if attrs.get "rel" = some "payment" then
      (match attrs.get "href" with
       | some v =>
         if v ≠ "" then setEpisode s (fun e => { e with payment_url := some (pyStrip v) }) else s
       | none => s)
    else s
  | .enclosureTarget, s, attrs => enclosureStart E s attrs
  | _, s, _ => s

/-- `target.end(handler, text)` for each `MAPPING` entry
(`parse_duration` strips before `util.parse_time`; `parse_pubdate` passes the
raw text to `util.parse_date`). -/
def Target.endHook (E : Externals) : Target → ParserState → String → ParserState
  | .podcastItem, s, _ => podcastItemEnd s
  | .podcastAttrTitle, s, text => { s with title := squash_whitespace text }
  | .podcastAttrLink, s, text => { s with channel_link := some (pyStrip text) }
  | .podcastAttrDescription, s, text =>
    { s with channel_description := some (squash_whitespace text) }
  | .podcastAttrCoverUrl, s, text => { s with cover_url := some (pyStrip text) }
  | .episodeItem, s, _ => episodeItemEnd E s
  | .episodeGuid, s, text => episodeGuidEnd E s text
  | .episodeAttrTitle, s, text =>
    setEpisode s (fun e => { e with title := some (squash_whitespace text) })
  | .episodeAttrLink, s, text => setEpisode s (fun e => { e with link := pyStrip text })
  | .episodeAttrDescription, s, text =>
    setEpisode s (fun e => { e with description := squash_whitespace text })
  | .episodeAttrDuration, s, text =>
    setEpisode s (fun e => { e with total_time := E.parse_time (pyStrip text) })
  | .episodeAttrPubDate, s, text =>
    setEpisode s (fun e => { e with published := E.parse_date text })
  | _, s, _ => s

def joinPath (l : List String) : String := String.intercalate "/" l

/-- `PodcastHandler.startElement`. -/
def startElement (E : Externals) (s : ParserState) (name : String) (attrs : Attrs) :
    ParserState :=
  let s := { s with path_stack := s.path_stack ++ [name] }
  match MAPPING (joinPath s.path_stack) with
  | none => s
  | some t =>
    let s := t.startHook E s attrs
    if t.wantText then { s with text := some [] } else s

/-- `PodcastHandler.characters`. -/
def characters (s : ParserState) (chars : String) : ParserState :=
  match s.text with
  | some l => { s with text := some (l ++ [chars]) }
  | none => s

/-- `PodcastHandler.endElement` (the element name is only popped from the path
stack; dispatch uses the pre-pop path). -/
def endElement (E : Externals) (s : ParserState) (_name : String) : ParserState :=
  let s1 :=
    match MAPPING (joinPath s.path_stack) with
    | none => s
    | some t =>
      { t.endHook E s (match s.text with | some l => String.join l | none => "") with
        text := none }
  { s1 with path_stack := s1.path_stack.dropLast }

/-- The SAX events the parser consumes. -/
inductive XmlEvent where
  | startE (name : String) (attrs : Attrs)
  | charsE (chars : String)
  | endE (name : String)
deriving Repr, DecidableEq

def step (E : Externals) (s : ParserState) : XmlEvent → ParserState
  | .startE n a => startElement E s n a
  | .charsE c => characters s c
  | .endE n => endElement E s n

def runEvents (E : Externals) (s : ParserState) (evs : List XmlEvent) : ParserState :=
  evs.foldl (step E) s

/-- `PodcastHandler.__init__(url, max_episodes)`. -/
def initState (url : String) (max_episodes : Int) : ParserState :=
  { url := url, max_episodes := max_episodes }

/-- `parse(url, stream, max_episodes)`: run the handler over the event stream;
the returned `handler.data` is read off the final state (`title`, `episodes`,
and the other document fields). -/
def parse (E : Externals) (url : String) (evs : List XmlEvent) (max_episodes : Int) :
    ParserState :=
  runEvents E (initState url max_episodes) evs

/-- Concrete instantiation of the external collaborators, used to evaluate the
model on closed inputs. -/
def testE : Externals where
  normalize_feed_url := fun s => s
  urljoin := fun b r => b ++ r
  parse_time := fun s => (pyToInt s).getD 0
  parse_date := fun s => (pyToInt (pyStrip s)).getD 0
  youtube_is_video_link := fun u => u == "yt:video"
  vimeo_is_video_link := fun u => u == "vimeo:video"

/-! ## Helper lemmas -/

theorem modifyLast_concat (f : Episode → Episode) (l : List Episode) (e : Episode) :
    modifyLast f (l ++ [e]) = l ++ [f e] := by
  induction l with
  | nil => simp [modifyLast]
  | cons x xs ih =>
    cases xs with
    | nil => simp [modifyLast]
    | cons y ys => simpa [modifyLast] using ih

theorem mem_modifyLast {f : Episode → Episode} {l : List Episode} {x : Episode}
    (hx : x ∈ modifyLast f l) : x ∈ l ∨ ∃ y ∈ l, x = f y := by
  induction l with
  | nil => simp [modifyLast] at hx
  | cons a as ih =>
    cases as with
    | nil =>
      simp [modifyLast] at hx
      exact Or.inr ⟨a, by simp, hx⟩
    | cons b bs =>
      simp only [modifyLast, List.mem_cons] at hx
      rcases hx with h | h
      · exact Or.inl (by simp [h])
      · rcases ih h with h' | ⟨y, hy, hxy⟩
        · exact Or.inl (by simp [h'])
        · exact Or.inr ⟨y, by simp [hy], hxy⟩

/-- The fields of a finalized episode that come from the chosen enclosure,
together with the two deleted keys. -/
theorem finalizeEntry_fields (e0 : Enclosure) (entry : Episode) :
    (finalizeEntry e0 entry).url = some e0.url ∧
    (finalizeEntry e0 entry).file_size = e0.file_size ∧
    (finalizeEntry e0 entry).mime_type = e0.mime_type ∧
    (finalizeEntry e0 entry).enclosures = none ∧
    (finalizeEntry e0 entry).guid_is_permalink = none := by
  obtain ⟨t, d, u, p, lk, g, fs, mt, tt, pu, en, gp⟩ := entry
  cases g <;> cases t <;> simp [finalizeEntry] <;> split_ifs <;> and_intros <;> rfl

/-- The finalized guid: the parsed guid when one was stored, else the
episode's (enclosure-derived) url. -/
theorem finalizeEntry_guid (e0 : Enclosure) (entry : Episode) :
    (finalizeEntry e0 entry).guid = some (entry.guid.getD e0.url) := by
  obtain ⟨t, d, u, p, lk, g, fs, mt, tt, pu, en, gp⟩ := entry
  cases g <;> cases t <;> simp [finalizeEntry] <;> split_ifs <;> rfl

/-! ## Output invariants (mime_type shape, file_size never zero) -/

def mimeOk (m : String) : Prop := m ≠ "" ∧ m.toList.contains '/' = true

def encOk (enc : Enclosure) : Prop := mimeOk enc.mime_type ∧ enc.file_size ≠ 0

def epOk (e : Episode) : Prop :=
  mimeOk e.mime_type ∧ e.file_size ≠ 0 ∧ ∀ enc ∈ e.enclosures.getD [], encOk enc

def stateOk (s : ParserState) : Prop := ∀ e ∈ s.episodes, epOk e

theorem mimeOk_parse_type (t : Option String) : mimeOk (parse_type t) := by
  cases t with
  | none => exact ⟨by decide, by decide⟩
  | some t =>
    simp only [parse_type]
    by_cases h : (t = "" || !(t.toList.contains '/')) = true
    · rw [if_pos h]; exact ⟨by decide, by decide⟩
    · rw [if_neg h]
      constructor
      · intro ht; exact h (by simp [ht])
      · cases hc : t.toList.contains '/' with
        | true => rfl
        | false =>
          refine absurd ?_ h
          simp only [Bool.or_eq_true, Bool.not_eq_true']
          exact Or.inr hc

theorem parse_length_ne_zero (t : Option String) : parse_length t ≠ 0 := by
  cases t with
  | none => decide
  | some t =>
    cases h : pyToInt (pyStrip t) with
    | none => simp [parse_length, h]
    | some n =>
      rcases eq_or_ne n 0 with hn | hn
      · simp [parse_length, h, hn]
      · simp [parse_length, h, hn]

theorem epOk_fresh : epOk freshEpisode := by
  refine ⟨⟨by decide, by decide⟩, by decide, ?_⟩
  intro enc henc
  simp [freshEpisode] at henc

theorem encOk_synthetic (link : String) : encOk (syntheticEnclosure link) := by
  refine ⟨⟨?_, ?_⟩, ?_⟩
  · show ("video/mp4" : String) ≠ ""
    decide
  · show ("video/mp4" : String).toList.contains '/' = true
    decide
  · show (-1 : Int) ≠ 0
    decide

theorem epOk_finalize {e0 : Enclosure} (entry : Episode) (h0 : encOk e0) :
    epOk (finalizeEntry e0 entry) := by
  obtain ⟨-, hfs, hmt, hencl, -⟩ := finalizeEntry_fields e0 entry
  refine ⟨hmt ▸ h0.1, hfs ▸ h0.2, ?_⟩
  intro enc henc
  rw [hencl] at henc
  simp at henc

theorem stateOk_setEpisode {s : ParserState} {f : Episode → Episode} (hs : stateOk s)
    (hf : ∀ e, epOk e → epOk (f e)) : stateOk (setEpisode s f) := by
  intro e he
  rcases mem_modifyLast he with h | ⟨y, hy, rfl⟩
  · exact hs e h
  · exact hf y (hs y hy)

theorem epOk_append_enclosure {e : Episode} (he : epOk e) (enc : Enclosure)
    (h0 : encOk enc) :
    epOk { e with enclosures := e.enclosures.map (fun l => l ++ [enc]) } := by
  refine ⟨he.1, he.2.1, ?_⟩
  intro x hx
  cases hencl : e.enclosures with
  | none => simp [hencl] at hx
  | some l =>
    simp only [hencl, Option.map_some', Option.getD_some, List.mem_append,
      List.mem_singleton] at hx
    rcases hx with hx | rfl
    · exact he.2.2 x (by simp [hencl, hx])
    · exact h0

theorem stateOk_startHook (E : Externals) (t : Target) (s : ParserState) (attrs : Attrs)
    (hs : stateOk s) : stateOk (t.startHook E s attrs) := by
  cases t
  case episodeItem =>
    simp only [Target.startHook]
    intro e he
    rcases List.mem_append.mp he with h | h
    · exact hs e h
    · simp only [List.mem_singleton] at h
      exact h ▸ epOk_fresh
  case episodeGuid =>
    exact stateOk_setEpisode hs (fun e h => h)
  case episodeAttrFromPaymentHref =>
    simp only [Target.startHook]
    repeat' split
    all_goals first
      | exact hs
      | exact stateOk_setEpisode hs (fun e h => h)
  case enclosureTarget =>
    simp only [Target.startHook]
    unfold enclosureStart
    split
    · exact hs
    · exact stateOk_setEpisode hs (fun e h =>
        epOk_append_enclosure h _ ⟨mimeOk_parse_type _, parse_length_ne_zero _⟩)
  all_goals
    simp only [Target.startHook]
    repeat' split
    all_goals exact hs

theorem mem_podcastItemEnd {s : ParserState} {e : Episode}
    (he : e ∈ (podcastItemEnd s).episodes) : e ∈ s.episodes := by
  simp only [podcastItemEnd] at he
  have hmem : e ∈ s.episodes.insertionSort pubGE := by
    by_cases h : s.max_episodes ≠ 0
    · rw [if_pos h] at he
      unfold pySliceTo at he
      split_ifs at he <;> exact List.mem_of_mem_take he
    · rw [if_neg h] at he
      exact he
  exact (List.mem_insertionSort pubGE).mp hmem

/-- `EpisodeItem.end` when the episode list is empty (source: `IndexError`). -/
theorem episodeItemEnd_nolast (E : Externals) (s : ParserState)
    (h : s.episodes.getLast? = none) : episodeItemEnd E s = s := by
  unfold episodeItemEnd
  simp [h]

/-- `EpisodeItem.end` on an already-finalized last entry (source: `KeyError`). -/
theorem episodeItemEnd_noencl (E : Externals) (s : ParserState) (entry : Episode)
    (hlast : s.episodes.getLast? = some entry) (h : entry.enclosures = none) :
    episodeItemEnd E s = s := by
  unfold episodeItemEnd
  simp [hlast, h]

/-- `EpisodeItem.end`, drop branch: no collected enclosure and no classifier
match pops the episode; nothing else in the state changes. -/
theorem episodeItemEnd_drop (E : Externals) (s : ParserState) (entry : Episode)
    (hlast : s.episodes.getLast? = some entry) (hencl : entry.enclosures = some [])
    (hvid : (E.youtube_is_video_link entry.link || E.vimeo_is_video_link entry.link) = false) :
    episodeItemEnd E s = { s with episodes := s.episodes.dropLast } := by
  unfold episodeItemEnd
  simp [hlast, hencl, hvid]

/-- `EpisodeItem.end`, synthetic branch: empty enclosure list but a video link. -/
theorem episodeItemEnd_keep_synthetic (E : Externals) (s : ParserState) (entry : Episode)
    (hlast : s.episodes.getLast? = some entry) (hencl : entry.enclosures = some [])
    (hvid : (E.youtube_is_video_link entry.link || E.vimeo_is_video_link entry.link) = true) :
    episodeItemEnd E s =
      { s with episodes := s.episodes.dropLast ++
          [finalizeEntry (syntheticEnclosure entry.link)
            { entry with enclosures := some [syntheticEnclosure entry.link] }] } := by
  unfold episodeItemEnd
  simp [hlast, hencl, hvid]

/-- `EpisodeItem.end`, normal branch: the first collected enclosure wins. -/
theorem episodeItemEnd_keep_real (E : Externals) (s : ParserState) (entry : Episode)
    (e0 : Enclosure) (rest : List Enclosure)
    (hlast : s.episodes.getLast? = some entry)
    (hencl : entry.enclosures = some (e0 :: rest)) :
    episodeItemEnd E s =
      { s with episodes := s.episodes.dropLast ++
          [finalizeEntry e0 { entry with enclosures := some (e0 :: rest) }] } := by
  unfold episodeItemEnd
  simp [hlast, hencl]

theorem stateOk_episodeItemEnd (E : Externals) {s : ParserState} (hs : stateOk s) :
    stateOk (episodeItemEnd E s) := by
  cases hlast : s.episodes.getLast? with
  | none =>
    rw [episodeItemEnd_nolast E s hlast]
    exact hs
  | some entry =>
    have hentry : entry ∈ s.episodes := by
      obtain ⟨ys, hys⟩ := List.getLast?_eq_some_iff.mp hlast
      rw [hys]; simp
    cases hencl : entry.enclosures with
    | none =>
      rw [episodeItemEnd_noencl E s entry hlast hencl]
      exact hs
    | some encls =>
      cases encls with
      | nil =>
        cases hv : (E.youtube_is_video_link entry.link || E.vimeo_is_video_link entry.link) with
        | false =>
          rw [episodeItemEnd_drop E s entry hlast hencl hv]
          intro e he
          exact hs e (List.mem_of_mem_dropLast he)
        | true =>
          rw [episodeItemEnd_keep_synthetic E s entry hlast hencl hv]
          intro e he
          rcases List.mem_append.mp he with h | h
          · exact hs e (List.mem_of_mem_dropLast h)
          · simp only [List.mem_singleton] at h
            exact h ▸ epOk_finalize _ (encOk_synthetic _)
      | cons e0 rest =>
        rw [episodeItemEnd_keep_real E s entry e0 rest hlast hencl]
        intro e he
        rcases List.mem_append.mp he with h | h
        · exact hs e (List.mem_of_mem_dropLast h)
        · simp only [List.mem_singleton] at h
          have h0 : encOk e0 := (hs entry hentry).2.2 e0 (by simp [hencl])
          exact h ▸ epOk_finalize _ h0

theorem stateOk_endHook (E : Externals) (t : Target) (s : ParserState) (text : String)
    (hs : stateOk s) : stateOk (t.endHook E s text) := by
  cases t
  case podcastItem =>
    simp only [Target.endHook]
    intro e he
    exact hs e (mem_podcastItemEnd he)
  case episodeItem =>
    simp only [Target.endHook]
    exact stateOk_episodeItemEnd E hs
  case episodeGuid =>
    simp only [Target.endHook]
    unfold episodeGuidEnd
    exact stateOk_setEpisode hs (fun e h => h)
  case episodeAttrTitle => exact stateOk_setEpisode hs (fun e h => h)
  case episodeAttrLink => exact stateOk_setEpisode hs (fun e h => h)
  case episodeAttrDescription => exact stateOk_setEpisode hs (fun e h => h)
  case episodeAttrDuration => exact stateOk_setEpisode hs (fun e h => h)
  case episodeAttrPubDate => exact stateOk_setEpisode hs (fun e h => h)
  all_goals exact hs

theorem stateOk_step (E : Externals) (s : ParserState) (ev : XmlEvent) (hs : stateOk s) :
    stateOk (step E s ev) := by
  cases ev with
  | startE n a =>
    simp only [step, startElement]
    split
    · exact hs
    · split
      · exact stateOk_startHook E _ _ a hs
      · exact stateOk_startHook E _ _ a hs
  | charsE c =>
    simp only [step, characters]
    split <;> exact hs
  | endE n =>
    simp only [step, endElement]
    split
    · exact hs
    · exact stateOk_endHook E _ _ _ hs

theorem stateOk_runEvents (E : Externals) (evs : List XmlEvent) :
    ∀ s : ParserState, stateOk s → stateOk (runEvents E s evs) := by
  induction evs with
  | nil => exact fun s h => h
  | cons ev evs ih =>
    intro s h
    exact ih (step E s ev) (stateOk_step E s ev h)

theorem stateOk_parse (E : Externals) (url : String) (evs : List XmlEvent)
    (max_episodes : Int) : stateOk (parse E url evs max_episodes) := by
  refine stateOk_runEvents E evs _ ?_
  intro e he
  simp [initState] at he

/-! ## Concrete feeds used to evaluate the model on closed inputs -/

def itemOne : List XmlEvent :=
  [.startE "item" [], .startE "guid" [], .charsE "g1", .endE "guid",
   .startE "pubDate" [], .charsE "1", .endE "pubDate",
   .startE "enclosure" [("url", "e1"), ("length", "10"), ("type", "audio/mpeg")],
   .endE "enclosure", .endE "item"]

def itemTwo : List XmlEvent :=
  [.startE "item" [], .startE "guid" [], .charsE "g2", .endE "guid",
   .startE "pubDate" [], .charsE "2", .endE "pubDate",
   .startE "enclosure" [("url", "e2"), ("length", "20"), ("type", "audio/mpeg")],
   .endE "enclosure", .endE "item"]

def feedPrefix : List XmlEvent := [.startE "rss" [], .startE "channel" []] ++ itemOne

def feedFull : List XmlEvent := feedPrefix ++ itemTwo ++ [.endE "channel", .endE "rss"]

def feedNegLen : List XmlEvent :=
  [.startE "rss" [], .startE "channel" [], .startE "item" [],
   .startE "enclosure" [("url", "e1"), ("length", "-5"), ("type", "audio/mpeg")],
   .endE "enclosure", .endE "item", .endE "channel", .endE "rss"]

def feedEmptyGuid : List XmlEvent :=
  [.startE "rss" [], .startE "channel" [], .startE "item" [],
   .startE "guid" [], .endE "guid",
   .startE "enclosure" [("url", "e1"), ("length", "10"), ("type", "audio/mpeg")],
   .endE "enclosure", .endE "item", .endE "channel", .endE "rss"]

/-! ## Claims -/

/-- C3 (amended): `parse_length` returns `-1` when the length attribute is
absent, when the text does not parse as an integer, and when the parsed value
is zero; any other parsed value — including negative ones — is passed through
unchanged, so an output episode's `file_size` is never zero, but it is not
restricted to `-1`-or-positive. -/
theorem parse_length_sentinel_and_passthrough :
    parse_length none = -1
    ∧ (∀ t, pyToInt (pyStrip t) = none → parse_length (some t) = -1)
    ∧ (∀ t, pyToInt (pyStrip t) = some 0 → parse_length (some t) = -1)
    ∧ (∀ t n, pyToInt (pyStrip t) = some n → n ≠ 0 → parse_length (some t) = n)
    ∧ (∀ (E : Externals) (url : String) (evs : List XmlEvent) (m : Int),
        ∀ e ∈ (parse E url evs m).episodes, e.file_size ≠ 0) := by
  refine ⟨rfl, ?_, ?_, ?_, ?_⟩
  · intro t h; simp [parse_length, h]
  · intro t h; simp [parse_length, h]
  · intro t n h hn; simp [parse_length, h, hn]
  · intro E url evs m e he
    exact ((stateOk_parse E url evs m) e he).2.1

/-- Witness for C3's amended theorem at concrete inputs. -/
theorem parse_length_sentinel_witness :
    pyToInt (pyStrip "abc") = none ∧ parse_length (some "abc") = -1
    ∧ pyToInt (pyStrip " 0 ") = some 0 ∧ parse_length (some " 0 ") = -1
    ∧ pyToInt (pyStrip "-5") = some (-5) ∧ (-5 : Int) ≠ 0
    ∧ parse_length (some "-5") = -5 :=
  ⟨by decide, parse_length_sentinel_and_passthrough.2.1 "abc" (by decide),
   by decide, parse_length_sentinel_and_passthrough.2.2.1 " 0 " (by decide),
   by decide, by decide,
   parse_length_sentinel_and_passthrough.2.2.2.1 "-5" (-5) (by decide) (by decide)⟩

/-- C3 counterexample: an enclosure declaring `length="-5"` yields an output
episode with `file_size = -5`, which is neither `-1` nor positive. -/
theorem negative_length_passes_through :
    ((parse testE "u" feedNegLen 0).episodes.map (fun e => e.file_size)) = [-5]
    ∧ ¬((-5 : Int) = -1 ∨ 0 < (-5 : Int)) :=
  ⟨by decide, by decide⟩

/-- C5: every output episode's `mime_type` is non-empty and contains `/`;
`parse_type` returns its input unchanged exactly when the input is non-empty
and contains `/`, and the octet-stream default otherwise; synthetic enclosures
always carry `video/mp4`. -/
theorem mime_type_always_valid :
    (∀ (E : Externals) (url : String) (evs : List XmlEvent) (m : Int),
        ∀ e ∈ (parse E url evs m).episodes,
          e.mime_type ≠ "" ∧ e.mime_type.toList.contains '/' = true)
    ∧ parse_type none = "application/octet-stream"
    ∧ parse_type (some "") = "application/octet-stream"
    ∧ (∀ t, t.toList.contains '/' = false →
        parse_type (some t) = "application/octet-stream")
    ∧ (∀ t, t ≠ "" → t.toList.contains '/' = true → parse_type (some t) = t)
    ∧ (∀ link, (syntheticEnclosure link).mime_type = "video/mp4") := by
  refine ⟨?_, rfl, rfl, ?_, ?_, fun link => rfl⟩
  · intro E url evs m e he
    exact ((stateOk_parse E url evs m) e he).1
  · intro t h
    have h' : '/' ∉ t.data := by simpa using h
    simp [parse_type, h']
  · intro t h1 h2
    have h2' : '/' ∈ t.data := by simpa using h2
    simp [parse_type, h1, h2']

/-- Witness for C5 at concrete inputs. -/
theorem mime_type_always_valid_witness :
    ("text" : String).toList.contains '/' = false
    ∧ parse_type (some "text") = "application/octet-stream"
    ∧ ("audio/mpeg" : String) ≠ ""
    ∧ ("audio/mpeg" : String).toList.contains '/' = true
    ∧ parse_type (some "audio/mpeg") = "audio/mpeg"
    ∧ (∀ e ∈ (parse testE "u" feedFull 0).episodes,
        e.mime_type ≠ "" ∧ e.mime_type.toList.contains '/' = true) :=
  ⟨by decide, mime_type_always_valid.2.2.2.1 "text" (by decide),
   by decide, by decide,
   mime_type_always_valid.2.2.2.2.1 "audio/mpeg" (by decide) (by decide),
   mime_type_always_valid.1 testE "u" feedFull 0⟩

/-- Stability of the per-document sort: episodes with equal `published` appear
in the sorted list in their original document order. -/
theorem pubGE_filter_stable (l : List Episode) (v : Int) :
    (l.insertionSort pubGE).filter (fun e => e.published == v)
      = l.filter (fun e => e.published == v) := by
  have hpair : (l.filter (fun e => e.published == v)).Pairwise pubGE := by
    refine List.pairwise_of_forall_mem_list ?_
    intro a ha b hb
    have ha' := (List.mem_filter.mp ha).2
    have hb' := (List.mem_filter.mp hb).2
    simp only [beq_iff_eq] at ha' hb'
    unfold pubGE
    rw [ha', hb']
  have hsub : (l.filter (fun e => e.published == v)).Sublist (l.insertionSort pubGE) :=
    List.sublist_insertionSort hpair (List.filter_sublist l)
  have hself : (l.filter (fun e => e.published == v)).filter (fun e => e.published == v)
      = l.filter (fun e => e.published == v) :=
    List.filter_eq_self.mpr (fun a ha => (List.mem_filter.mp ha).2)
  have hsub2 : (l.filter (fun e => e.published == v)).Sublist
      ((l.insertionSort pubGE).filter (fun e => e.published == v)) := by
    have := hsub.filter (fun e => e.published == v)
    rwa [hself] at this
  have hlen : ((l.insertionSort pubGE).filter (fun e => e.published == v)).length
      = (l.filter (fun e => e.published == v)).length :=
    ((List.perm_insertionSort pubGE l).filter (fun e => e.published == v)).length_eq
  exact (hsub2.eq_of_length hlen.symm).symm

/-- C2: at channel close the episode list is stable-sorted by `published`
descending (adjacent entries are non-increasing, equal keys keep document
order), truncated to the first `max_episodes` entries when `max_episodes > 0`,
and left untruncated when `max_episodes = 0`. -/
theorem channel_close_sorts_stable_truncates (s : ParserState)
    (h : 0 ≤ s.max_episodes) :
    List.Chain' (fun a b : Episode => b.published ≤ a.published)
      (podcastItemEnd s).episodes
    ∧ (∀ v : Int,
        (s.episodes.insertionSort pubGE).filter (fun e => e.published == v)
          = s.episodes.filter (fun e => e.published == v))
    ∧ (0 < s.max_episodes →
        (podcastItemEnd s).episodes
            = (s.episodes.insertionSort pubGE).take s.max_episodes.toNat
          ∧ (podcastItemEnd s).episodes.length ≤ s.max_episodes.toNat)
    ∧ (s.max_episodes = 0 →
        (podcastItemEnd s).episodes = s.episodes.insertionSort pubGE) := by
  have hsorted := List.sorted_insertionSort pubGE s.episodes
  have hchain : ∀ n, List.Chain' (fun a b : Episode => b.published ≤ a.published)
      ((s.episodes.insertionSort pubGE).take n) := by
    intro n
    exact (List.Pairwise.sublist (List.take_sublist n _) hsorted).chain'
  refine ⟨?_, fun v => pubGE_filter_stable s.episodes v, ?_, ?_⟩
  · simp only [podcastItemEnd]
    split
    · unfold pySliceTo
      split
      · exact hchain _
      · exact hchain _
    · exact hsorted.chain'
  · intro hpos
    have hne : s.max_episodes ≠ 0 := by omega
    have heq : (podcastItemEnd s).episodes
        = (s.episodes.insertionSort pubGE).take s.max_episodes.toNat := by
      simp only [podcastItemEnd, if_pos hne]
      unfold pySliceTo
      rw [if_pos h]
    refine ⟨heq, ?_⟩
    rw [heq, List.length_take]
    exact min_le_left _ _
  · intro hz
    have hne : ¬ s.max_episodes ≠ 0 := fun hh => hh hz
    simp only [podcastItemEnd, if_neg hne]

def c2state : ParserState :=
  { url := "u", max_episodes := 1,
    episodes := [{ published := 1 }, { published := 2 }] }

/-- Witness for C2 at a concrete two-episode state with `max_episodes = 1`. -/
theorem channel_close_sorts_witness :
    (0 : Int) ≤ c2state.max_episodes
    ∧ List.Chain' (fun a b : Episode => b.published ≤ a.published)
        (podcastItemEnd c2state).episodes
    ∧ ((podcastItemEnd c2state).episodes
          = (c2state.episodes.insertionSort pubGE).take c2state.max_episodes.toNat
        ∧ (podcastItemEnd c2state).episodes.length ≤ c2state.max_episodes.toNat) :=
  ⟨by decide, (channel_close_sorts_stable_truncates c2state (by decide)).1,
   (channel_close_sorts_stable_truncates c2state (by decide)).2.2.1 (by decide)⟩

/-- C10: a negative `max_episodes = -k` is neither "unlimited" nor an upper
bound: the slice `episodes[:-k]` keeps the first `n - k` entries of the
descending-sorted list, i.e. the `k` oldest episodes are removed and
`max(n - k, 0)` remain. -/
theorem negative_max_drops_oldest (s : ParserState) (k : Nat) (hk : 0 < k)
    (h : s.max_episodes = -(k : Int)) :
    (podcastItemEnd s).episodes
        = (s.episodes.insertionSort pubGE).take (s.episodes.length - k)
    ∧ (podcastItemEnd s).episodes.length = s.episodes.length - k := by
  have hne : s.max_episodes ≠ 0 := by omega
  have hneg : ¬ (0 ≤ s.max_episodes) := by omega
  have hlen : (s.episodes.insertionSort pubGE).length = s.episodes.length :=
    List.length_insertionSort pubGE s.episodes
  have htn : (-s.max_episodes).toNat = k := by omega
  have heq : (podcastItemEnd s).episodes
      = (s.episodes.insertionSort pubGE).take (s.episodes.length - k) := by
    simp only [podcastItemEnd, if_pos hne]
    unfold pySliceTo
    rw [if_neg hneg, hlen, htn]
  refine ⟨heq, ?_⟩
  rw [heq, List.length_take, hlen]
  omega

def c10state : ParserState :=
  { url := "u", max_episodes := -1,
    episodes := [{ published := 1 }, { published := 2 }] }

/-- Witness for C10: with two episodes and `max_episodes = -1`, the oldest
episode is removed and one remains. -/
theorem negative_max_drops_oldest_witness :
    (0 < 1 ∧ c10state.max_episodes = -((1 : Nat) : Int))
    ∧ ((podcastItemEnd c10state).episodes
          = (c10state.episodes.insertionSort pubGE).take (c10state.episodes.length - 1)
        ∧ (podcastItemEnd c10state).episodes.length = c10state.episodes.length - 1) :=
  ⟨⟨by decide, by decide⟩, negative_max_drops_oldest c10state 1 (by decide) (by decide)⟩

/-- C1 (amended): at its item-close event an episode is kept in the
in-progress list iff its transient enclosure list is non-empty or its link is
classified as a video link by one of the two classifiers; in the synthetic
case the kept episode carries `{url: link, file_size: -1, mime_type:
"video/mp4"}`; when neither holds the episode is removed and nothing else in
the state changes (no fallback steps, no error). Presence in the *final*
document list is NOT equivalent to this condition: a kept episode can still be
removed by `max_episodes` truncation at channel close. -/
theorem item_close_keep_iff (E : Externals) (s : ParserState) (entry : Episode)
    (l : List Enclosure) (hlast : s.episodes.getLast? = some entry)
    (hencl : entry.enclosures = some l) :
    ((episodeItemEnd E s).episodes.length = s.episodes.length
      ↔ (l ≠ [] ∨ E.youtube_is_video_link entry.link = true
          ∨ E.vimeo_is_video_link entry.link = true))
    ∧ ((l = [] ∧ E.youtube_is_video_link entry.link = false
          ∧ E.vimeo_is_video_link entry.link = false) →
        episodeItemEnd E s = { s with episodes := s.episodes.dropLast })
    ∧ ((l = [] ∧ (E.youtube_is_video_link entry.link = true
          ∨ E.vimeo_is_video_link entry.link = true)) →
        ∃ fin, (episodeItemEnd E s).episodes = s.episodes.dropLast ++ [fin]
          ∧ fin.url = some entry.link ∧ fin.file_size = -1
          ∧ fin.mime_type = "video/mp4") := by
  obtain ⟨ys, hys⟩ := List.getLast?_eq_some_iff.mp hlast
  have hlen : s.episodes.length = ys.length + 1 := by rw [hys]; simp
  have hdroplen : s.episodes.dropLast.length = ys.length := by
    rw [hys, List.dropLast_concat]
  have hdrop : (l = [] ∧ E.youtube_is_video_link entry.link = false
      ∧ E.vimeo_is_video_link entry.link = false) →
      episodeItemEnd E s = { s with episodes := s.episodes.dropLast } := by
    rintro ⟨rfl, h1, h2⟩
    exact episodeItemEnd_drop E s entry hlast hencl (by simp [h1, h2])
  have hsynth : (l = [] ∧ (E.youtube_is_video_link entry.link = true
      ∨ E.vimeo_is_video_link entry.link = true)) →
      ∃ fin, (episodeItemEnd E s).episodes = s.episodes.dropLast ++ [fin]
        ∧ fin.url = some entry.link ∧ fin.file_size = -1
        ∧ fin.mime_type = "video/mp4" := by
    rintro ⟨rfl, hv⟩
    have hv' : (E.youtube_is_video_link entry.link
        || E.vimeo_is_video_link entry.link) = true := by
      rcases hv with hv | hv <;> simp [hv]
    refine ⟨finalizeEntry (syntheticEnclosure entry.link)
      { entry with enclosures := some [syntheticEnclosure entry.link] }, ?_, ?_, ?_, ?_⟩
    · rw [episodeItemEnd_keep_synthetic E s entry hlast hencl hv']
    · exact (finalizeEntry_fields _ _).1
    · exact (finalizeEntry_fields _ _).2.1
    · exact (finalizeEntry_fields _ _).2.2.1
  refine ⟨⟨?_, ?_⟩, hdrop, hsynth⟩
  · intro hkeep
    by_contra hcon
    push_neg at hcon
    obtain ⟨h0, h1, h2⟩ := hcon
    rw [hdrop ⟨h0, by simpa using h1, by simpa using h2⟩] at hkeep
    simp only at hkeep
    rw [hdroplen] at hkeep
    omega
  · intro hcond
    rcases hl : l with _ | ⟨e0, rest⟩
    · subst hl
      have hv : E.youtube_is_video_link entry.link = true
          ∨ E.vimeo_is_video_link entry.link = true := by
        rcases hcond with h | h | h
        · exact absurd rfl h
        · exact Or.inl h
        · exact Or.inr h
      obtain ⟨fin, hfin, -⟩ := hsynth ⟨rfl, hv⟩
      rw [hfin, List.length_append, hdroplen, hlen]
      simp
    · subst hl
      rw [episodeItemEnd_keep_real E s entry e0 rest hlast hencl]
      simp only [List.length_append, hdroplen, hlen]
      simp

def c1entry : Episode := { link := "yt:video" }

def c1state : ParserState := { url := "u", max_episodes := 0, episodes := [c1entry] }

/-- Witness for C1's amended theorem: an episode with an empty enclosure list
and a recognized video link is kept. -/
theorem item_close_keep_iff_witness :
    c1state.episodes.getLast? = some c1entry ∧ c1entry.enclosures = some []
    ∧ (((episodeItemEnd testE c1state).episodes.length = c1state.episodes.length)
        ↔ (([] : List Enclosure) ≠ [] ∨ testE.youtube_is_video_link c1entry.link = true
            ∨ testE.vimeo_is_video_link c1entry.link = true)) :=
  ⟨by decide, by decide,
   (item_close_keep_iff testE c1state c1entry [] (by decide) (by decide)).1⟩

/-- C1 counterexample: the claimed equivalence "appears in the final document's
episode list iff the item-close condition holds" fails under truncation: with
`max_episodes = 1`, episode g1 survives its item-close event (it is in the
in-progress list right after it, so its condition held) yet is absent from the
final episode list, which keeps only the more recent g2. -/
theorem truncation_drops_kept_episode :
    ((runEvents testE (initState "u" 1) feedPrefix).episodes.map (fun e => e.guid))
      = [some "g1"]
    ∧ ((runEvents testE (initState "u" 1) feedFull).episodes.map (fun e => e.guid))
      = [some "g2"] :=
  ⟨by decide, by decide⟩

/-- C4 (amended): EVERY kept episode's `guid` key is set after finalization —
whether it was kept for a collected enclosure or through the synthetic
video-link branch — to the parsed guid when one was stored, else to the
episode's (enclosure-derived) `url`; it is not guaranteed to be a non-empty
string. -/
theorem kept_episode_guid_defaults_to_url (E : Externals) (s : ParserState)
    (entry : Episode) (l : List Enclosure)
    (hlast : s.episodes.getLast? = some entry)
    (hencl : entry.enclosures = some l)
    (hkeep : l ≠ [] ∨ E.youtube_is_video_link entry.link = true
        ∨ E.vimeo_is_video_link entry.link = true) :
    ∃ fin, (episodeItemEnd E s).episodes = s.episodes.dropLast ++ [fin]
      ∧ fin.guid.isSome = true
      ∧ (∀ g, entry.guid = some g → fin.guid = some g)
      ∧ (entry.guid = none → fin.guid = fin.url) := by
  cases l with
  | nil =>
    have hv : (E.youtube_is_video_link entry.link
        || E.vimeo_is_video_link entry.link) = true := by
      rcases hkeep with h | h | h
      · exact absurd rfl h
      · simp [h]
      · simp [h]
    refine ⟨finalizeEntry (syntheticEnclosure entry.link)
      { entry with enclosures := some [syntheticEnclosure entry.link] },
      by rw [episodeItemEnd_keep_synthetic E s entry hlast hencl hv], ?_, ?_, ?_⟩
    · rw [finalizeEntry_guid]; rfl
    · intro g hg
      rw [finalizeEntry_guid]
      simp [hg]
    · intro hg
      rw [finalizeEntry_guid, (finalizeEntry_fields _ _).1]
      simp [hg]
  | cons e0 rest =>
    refine ⟨finalizeEntry e0 { entry with enclosures := some (e0 :: rest) },
      by rw [episodeItemEnd_keep_real E s entry e0 rest hlast hencl], ?_, ?_, ?_⟩
    · rw [finalizeEntry_guid]; rfl
    · intro g hg
      rw [finalizeEntry_guid]
      simp [hg]
    · intro hg
      rw [finalizeEntry_guid, (finalizeEntry_fields _ _).1]
      simp [hg]

def c4entry : Episode := { enclosures := some [⟨"e1", 10, "audio/mpeg"⟩] }

def c4state : ParserState := { url := "u", max_episodes := 0, episodes := [c4entry] }

/-- Witness for C4's amended theorem, exercising both keep branches: an
episode kept for a collected enclosure and an episode kept through the
synthetic video-link branch each end up with guid set (defaulting to url). -/
theorem kept_episode_guid_witness :
    (c4state.episodes.getLast? = some c4entry
      ∧ c4entry.enclosures = some [⟨"e1", 10, "audio/mpeg"⟩]
      ∧ ([⟨"e1", 10, "audio/mpeg"⟩] : List Enclosure) ≠ []
      ∧ ∃ fin, (episodeItemEnd testE c4state).episodes
            = c4state.episodes.dropLast ++ [fin]
          ∧ fin.guid.isSome = true
          ∧ (∀ g, c4entry.guid = some g → fin.guid = some g)
          ∧ (c4entry.guid = none → fin.guid = fin.url))
    ∧ (c1state.episodes.getLast? = some c1entry
      ∧ c1entry.enclosures = some []
      ∧ testE.youtube_is_video_link c1entry.link = true
      ∧ ∃ fin, (episodeItemEnd testE c1state).episodes
            = c1state.episodes.dropLast ++ [fin]
          ∧ fin.guid.isSome = true
          ∧ (∀ g, c1entry.guid = some g → fin.guid = some g)
          ∧ (c1entry.guid = none → fin.guid = fin.url)) :=
  ⟨⟨by decide, by decide, by decide,
    kept_episode_guid_defaults_to_url testE c4state c4entry [⟨"e1", 10, "audio/mpeg"⟩]
      (by decide) (by decide) (Or.inl (by decide))⟩,
   ⟨by decide, by decide, by decide,
    kept_episode_guid_defaults_to_url testE c1state c1entry []
      (by decide) (by decide) (Or.inr (Or.inl (by decide)))⟩⟩

/-- C4 counterexample: a feed with an empty `<guid></guid>` and a real
enclosure yields a kept episode whose final guid is `""` — present, defaulting
never fires (the key was set), but not a non-empty string. -/
theorem empty_guid_text_gives_empty_guid :
    ((parse testE "u" feedEmptyGuid 0).episodes.map (fun e => e.guid)) = [some ""]
    ∧ ¬ ("" : String) ≠ "" :=
  ⟨by decide, by decide⟩

/-- C6: an enclosure element with no `url` attribute is a no-op; otherwise its
url is joined against the feed's source URL (`handler.url` — the result does
not depend on `xml:base`) and normalized, `length` and `type` run through
`parse_length`/`parse_type`, and the record is appended after earlier
enclosures; at item close the first enclosure in collection order supplies the
episode's `url`, `file_size` and `mime_type` and the transient list is
deleted. -/
theorem enclosure_collect_and_first_wins (E : Externals) (s : ParserState)
    (attrs : Attrs) :
    (attrs.get "url" = none → enclosureStart E s attrs = s)
    ∧ (∀ u entry l, attrs.get "url" = some u → s.episodes.getLast? = some entry →
        entry.enclosures = some l →
        (enclosureStart E s attrs).episodes = s.episodes.dropLast ++
          [{ entry with enclosures := some (l ++
              [{ url := E.normalize_feed_url (pyStrip (E.urljoin s.url u)),
                 file_size := parse_length (attrs.get "length"),
                 mime_type := parse_type (attrs.get "type") }]) }])
    ∧ (∀ b, (enclosureStart E { s with base := b } attrs).episodes
        = (enclosureStart E s attrs).episodes)
    ∧ (∀ entry e0 rest, s.episodes.getLast? = some entry →
        entry.enclosures = some (e0 :: rest) →
        ∃ fin, (episodeItemEnd E s).episodes = s.episodes.dropLast ++ [fin]
          ∧ fin.url = some e0.url ∧ fin.file_size = e0.file_size
          ∧ fin.mime_type = e0.mime_type ∧ fin.enclosures = none) := by
  refine ⟨?_, ?_, ?_, ?_⟩
  · intro h
    simp [enclosureStart, h]
  · intro u entry l hu hlast hencl
    obtain ⟨ys, hys⟩ := List.getLast?_eq_some_iff.mp hlast
    simp only [enclosureStart, hu, Externals.parse_url, setEpisode]
    rw [hys, modifyLast_concat, List.dropLast_concat, hencl]
    rfl
  · intro b
    cases hu : attrs.get "url" with
    | none => simp [enclosureStart, hu]
    | some u => simp [enclosureStart, hu, setEpisode]
  · intro entry e0 rest hlast hencl
    refine ⟨finalizeEntry e0 { entry with enclosures := some (e0 :: rest) },
      by rw [episodeItemEnd_keep_real E s entry e0 rest hlast hencl], ?_, ?_, ?_, ?_⟩
    · exact (finalizeEntry_fields _ _).1
    · exact (finalizeEntry_fields _ _).2.1
    · exact (finalizeEntry_fields _ _).2.2.1
    · exact (finalizeEntry_fields _ _).2.2.2.1

def c6attrs : Attrs := [("url", "e1"), ("length", "10"), ("type", "audio/mpeg")]

/-- Witness for C6: one collected enclosure appended onto a fresh episode. -/
theorem enclosure_collect_witness :
    c6attrs.get "url" = some "e1"
    ∧ c4state.episodes.getLast? = some c4entry
    ∧ c4entry.enclosures = some [⟨"e1", 10, "audio/mpeg"⟩]
    ∧ (enclosureStart testE c4state c6attrs).episodes = c4state.episodes.dropLast ++
        [{ c4entry with enclosures := some ([⟨"e1", 10, "audio/mpeg"⟩] ++
            [{ url := testE.normalize_feed_url (pyStrip (testE.urljoin c4state.url "e1")),
               file_size := parse_length (c6attrs.get "length"),
               mime_type := parse_type (c6attrs.get "type") }]) }] :=
  ⟨by decide, by decide, by decide,
   (enclosure_collect_and_first_wins testE c4state c6attrs).2.1 "e1" c4entry
     [⟨"e1", 10, "audio/mpeg"⟩] (by decide) (by decide) (by decide)⟩

/-- C7 (amended): at guid close the episode's guid is the accumulated text
with whitespace trimmed FIRST and the result then URL-joined against
`ParserState.base` when base is set (trim-then-join, not join-then-trim); when
base is unset the stored guid is the trimmed text. The handler's `filter_func`
attribute is reassigned to the same closure. -/
theorem guid_trim_then_join (E : Externals) (s : ParserState) (text : String)
    (entry : Episode) (hlast : s.episodes.getLast? = some entry) :
    (episodeGuidEnd E s text).episodes
      = s.episodes.dropLast ++
        [{ entry with guid := some (match s.base with
            | some b => E.urljoin b (pyStrip text)
            | none => pyStrip text) }]
    ∧ (episodeGuidEnd E s text).guid_filter_func = guidFilterOf E s.base := by
  obtain ⟨ys, hys⟩ := List.getLast?_eq_some_iff.mp hlast
  constructor
  · simp only [episodeGuidEnd, guidFilterOf, setEpisode]
    rw [hys, modifyLast_concat, List.dropLast_concat]
  · rfl

def c7state : ParserState :=
  { url := "u", max_episodes := 0, base := some "B", episodes := [freshEpisode] }

/-- Witness for C7's amended theorem at a concrete state with base set. -/
theorem guid_trim_then_join_witness :
    c7state.episodes.getLast? = some freshEpisode
    ∧ (episodeGuidEnd testE c7state " x").episodes
        = c7state.episodes.dropLast ++
          [{ freshEpisode with guid := some (match c7state.base with
              | some b => testE.urljoin b (pyStrip " x")
              | none => pyStrip " x") }] :=
  ⟨by decide,
   (guid_trim_then_join testE c7state " x" freshEpisode (by decide)).1⟩

/-- C7 counterexample: with base `"B"`, guid text `" x"` and the concatenating
test join, the code stores `urljoin(B, trim(" x")) = "Bx"`, while the claimed
join-before-trim order would store `trim(urljoin(B, " x")) = "B x"`. -/
theorem guid_join_before_trim_false :
    ((episodeGuidEnd testE c7state " x").episodes.map (fun e => e.guid))
      = [some "Bx"]
    ∧ some "Bx" ≠ some (pyStrip (testE.urljoin "B" " x")) :=
  ⟨by decide, by decide⟩

/-- C8: handler lookup is by the full slash-joined path (title under channel
and title under item dispatch to different targets), and an enter or exit
event whose path has no bound handler changes only the path stack — document,
episode, text-buffer and base state are untouched and no error is raised. -/
theorem dispatch_exact_path_and_unmatched_frame :
    (MAPPING "rss/channel/title" = some Target.podcastAttrTitle
      ∧ MAPPING "rss/channel/item/title" = some Target.episodeAttrTitle
      ∧ MAPPING "rss/channel/title" ≠ MAPPING "rss/channel/item/title"
      ∧ MAPPING "title" = none)
    ∧ (∀ (E : Externals) (s : ParserState) (name : String) (attrs : Attrs),
        MAPPING (joinPath (s.path_stack ++ [name])) = none →
        startElement E s name attrs = { s with path_stack := s.path_stack ++ [name] })
    ∧ (∀ (E : Externals) (s : ParserState) (name : String),
        MAPPING (joinPath s.path_stack) = none →
        endElement E s name = { s with path_stack := s.path_stack.dropLast }) := by
  refine ⟨⟨rfl, rfl, by decide, rfl⟩, ?_, ?_⟩
  · intro E s name attrs h
    simp only [startElement, h]
  · intro E s name h
    simp only [endElement, h]

/-- Witness for C8's frame conditions at a concrete unmatched path. -/
theorem dispatch_unmatched_frame_witness :
    MAPPING (joinPath ((initState "u" 0).path_stack ++ ["foo"])) = none
    ∧ startElement testE (initState "u" 0) "foo" []
        = { initState "u" 0 with path_stack := (initState "u" 0).path_stack ++ ["foo"] }
    ∧ MAPPING (joinPath c7state.path_stack) = none
    ∧ endElement testE c7state "x"
        = { c7state with path_stack := c7state.path_stack.dropLast } :=
  ⟨by decide,
   dispatch_exact_path_and_unmatched_frame.2.1 testE (initState "u" 0) "foo" [] (by decide),
   by decide,
   dispatch_exact_path_and_unmatched_frame.2.2 testE c7state "x" (by decide)⟩

/-- No `Target.start` hook touches the `EpisodeGuid` handler's stored
`filter_func`. -/
theorem startHook_guid_filter (E : Externals) (t : Target) (s : ParserState)
    (attrs : Attrs) : (t.startHook E s attrs).guid_filter_func = s.guid_filter_func := by
  cases t <;>
    simp only [Target.startHook, enclosureStart, episodeGuidStart, setEpisode] <;>
    (repeat' split) <;> rfl

/-- `EpisodeItem.end` never touches the stored `filter_func`. -/
theorem episodeItemEnd_guid_filter (E : Externals) (s : ParserState) :
    (episodeItemEnd E s).guid_filter_func = s.guid_filter_func := by
  cases hlast : s.episodes.getLast? with
  | none => rw [episodeItemEnd_nolast E s hlast]
  | some entry =>
    cases hencl : entry.enclosures with
    | none => rw [episodeItemEnd_noencl E s entry hlast hencl]
    | some encls =>
      cases encls with
      | nil =>
        cases hv : (E.youtube_is_video_link entry.link
            || E.vimeo_is_video_link entry.link) with
        | false => rw [episodeItemEnd_drop E s entry hlast hencl hv]
        | true => rw [episodeItemEnd_keep_synthetic E s entry hlast hencl hv]
      | cons e0 rest => rw [episodeItemEnd_keep_real E s entry e0 rest hlast hencl]

/-- Among the `Target.end` hooks only `EpisodeGuid.end` reassigns the stored
`filter_func`. -/
theorem endHook_guid_filter (E : Externals) (t : Target) (s : ParserState)
    (text : String) (ht : t ≠ Target.episodeGuid) :
    (t.endHook E s text).guid_filter_func = s.guid_filter_func := by
  cases t
  case episodeGuid => exact absurd rfl ht
  case episodeItem => exact episodeItemEnd_guid_filter E s
  all_goals
    simp only [Target.endHook, podcastItemEnd, setEpisode] <;> (repeat' split) <;> rfl

/-- C9 (amended): the path-to-target binding itself is the fixed function
`MAPPING`, but the handler state stored with it is not fixed: the EpisodeGuid
instance's `filter_func` attribute is reassigned on every guid element close
(becoming the strip-then-join closure over the current base) and is changed by
no other event. -/
theorem guid_handler_filter_mutation (E : Externals) (s : ParserState) :
    (∀ (n : String) (attrs : Attrs),
        (step E s (XmlEvent.startE n attrs)).guid_filter_func = s.guid_filter_func)
    ∧ (∀ c, (step E s (XmlEvent.charsE c)).guid_filter_func = s.guid_filter_func)
    ∧ (∀ n, MAPPING (joinPath s.path_stack) ≠ some Target.episodeGuid →
        (step E s (XmlEvent.endE n)).guid_filter_func = s.guid_filter_func)
    ∧ (∀ n, MAPPING (joinPath s.path_stack) = some Target.episodeGuid →
        (step E s (XmlEvent.endE n)).guid_filter_func = guidFilterOf E s.base) := by
  refine ⟨?_, ?_, ?_, ?_⟩
  · intro n attrs
    simp only [step, startElement]
    split
    · rfl
    · split
      · exact startHook_guid_filter E _ _ attrs
      · exact startHook_guid_filter E _ _ attrs
  · intro c
    simp only [step, characters]
    split <;> rfl
  · intro n hne
    simp only [step, endElement]
    split
    · rfl
    · next t heq => exact endHook_guid_filter E t s _ (fun hh => hne (hh ▸ heq))
  · intro n heq
    simp only [step, endElement, heq]
    rfl

def c9state : ParserState :=
  { url := "u", max_episodes := 0, base := some "B",
    path_stack := ["rss", "channel", "item", "guid"], episodes := [freshEpisode] }

/-- Witness for C9's amended theorem: a guid close reassigns the stored
filter to the closure over the current base, and an unmatched close does not. -/
theorem guid_handler_filter_mutation_witness :
    MAPPING (joinPath c9state.path_stack) = some Target.episodeGuid
    ∧ (step testE c9state (XmlEvent.endE "guid")).guid_filter_func
        = guidFilterOf testE c9state.base
    ∧ MAPPING (joinPath (initState "u" 0).path_stack) ≠ some Target.episodeGuid
    ∧ (step testE (initState "u" 0) (XmlEvent.endE "x")).guid_filter_func
        = (initState "u" 0).guid_filter_func :=
  ⟨by decide,
   (guid_handler_filter_mutation testE c9state).2.2.2 "guid" (by decide),
   by decide,
   (guid_handler_filter_mutation testE (initState "u" 0)).2.2.1 "x" (by decide)⟩

def guidMutEvs : List XmlEvent :=
  [.startE "rss" [("xml:base", "B")], .startE "channel" [], .startE "item" [],
   .startE "guid" [], .endE "guid"]

/-- C9 counterexample: after a parse prefix with `xml:base="B"` and one guid
close, the `filter_func` stored in the (modelled) MAPPING handler state
differs observably from its initial value: it now maps `""` to `"B"` instead
of `""`. -/
theorem mapping_handler_state_mutated :
    (runEvents testE (initState "u" 0) guidMutEvs).guid_filter_func "" = "B"
    ∧ (initState "u" 0).guid_filter_func "" = ""
    ∧ (runEvents testE (initState "u" 0) guidMutEvs).guid_filter_func ""
        ≠ (initState "u" 0).guid_filter_func "" :=
  ⟨by decide, by decide, by decide⟩
